import Mathlib

/-!
# Verification of the smallcart checkout / cart core (`src/app.py`)

Shallow embedding of the data model and the cart / checkout / admin
operations of the Flask application `app.py`.  The SQLAlchemy tables become
lists of records, the autoincrement primary keys become explicit counters,
and each route handler becomes a pure function from the database state to
`Except Err DB` (a Python-level failure such as `get_or_404` or an
unhandled exception aborts the transaction, so no partial state escapes).

Numeric conventions: Python `int` is modelled by `Int` (it is unbounded and
`stock` may go negative), `Float` prices by `ℚ` (the claims are about the
algebraic relationship `total = Σ quantity × price`, which the code computes
literally), primary keys by `Nat`.
-/

namespace SmallCart

/-- A row of the `product` table (`app.py` lines 53-60). -/
structure Product where
  id : Nat
  name : String
  description : String
  price : ℚ
  stock : Int
  image_url : String
  deriving Repr, DecidableEq

/-- A row of the `order` table (`app.py` lines 62-68). -/
structure Order where
  id : Nat
  user_id : Nat
  total_amount : ℚ
  status : String
  created_at : Nat
  deriving Repr, DecidableEq

/-- A row of the `order_item` table (`app.py` lines 70-76). -/
structure OrderItem where
  id : Nat
  order_id : Nat
  product_id : Nat
  quantity : Int
  price : ℚ
  deriving Repr, DecidableEq

/-- A row of the `cart_item` table (`app.py` lines 78-84). -/
structure CartItem where
  id : Nat
  user_id : Nat
  product_id : Nat
  quantity : Int
  deriving Repr, DecidableEq

/-- The database state: the four tables of the core, the autoincrement
counters for fresh primary keys, and a logical clock feeding the
`created_at` column of new orders. -/
structure DB where
  products : List Product
  cart_items : List CartItem
  orders : List Order
  order_items : List OrderItem
  next_cart_item_id : Nat
  next_order_id : Nat
  next_order_item_id : Nat
  now : Nat
  deriving Repr, DecidableEq

/-- Error outcomes of the route handlers.  `notFound` is `get_or_404`,
`unauthorized` the ownership check in `update_cart`/`remove_from_cart`,
`emptyCart` the empty-cart rejection in `checkout`, and `productMissing`
the unhandled `AttributeError` raised when a cart line's product no longer
resolves during checkout (the SQLAlchemy session is never committed in
that case, so the transaction rolls back). -/
inductive Err where
  | notFound
  | unauthorized
  | emptyCart
  | productMissing
  deriving Repr, DecidableEq

/-- `Product.query.get(pid)`: the row whose primary key is `pid`. -/
def getProduct (ps : List Product) (pid : Nat) : Option Product :=
  ps.find? (fun p => p.id == pid)

/-- `CartItem.query.get(item_id)`: the row whose primary key is `item_id`. -/
def getCartItem (cs : List CartItem) (item_id : Nat) : Option CartItem :=
  cs.find? (fun c => c.id == item_id)

/-- `Order.query.get(oid)`: the row whose primary key is `oid`. -/
def getOrder (os : List Order) (oid : Nat) : Option Order :=
  os.find? (fun o => o.id == oid)

/-- Mutation of the first element satisfying `p`, in place: the row an ORM
query fetched and the handler then mutated before `db.session.commit()`. -/
def updateFirst (p : α → Bool) (f : α → α) : List α → List α
  | [] => []
  | x :: rest => if p x then f x :: rest else x :: updateFirst p f rest

/-- In-place mutation of the (first) product row with primary key `pid`,
as SQLAlchemy mutates the fetched ORM object. -/
def updateProduct (ps : List Product) (pid : Nat) (f : Product → Product) :
    List Product :=
  updateFirst (fun p => p.id == pid) f ps

/-- In-place mutation of the (first) cart row with primary key `cid`. -/
def updateCartItem (cs : List CartItem) (cid : Nat) (f : CartItem → CartItem) :
    List CartItem :=
  updateFirst (fun c => c.id == cid) f cs

/-- In-place mutation of the (first) order row with primary key `oid`. -/
def updateOrder (os : List Order) (oid : Nat) (f : Order → Order) :
    List Order :=
  updateFirst (fun o => o.id == oid) f os

/-- `existing_item.quantity += 1` (`app.py` line 186). -/
def incQuantity (c : CartItem) : CartItem :=
  { c with quantity := c.quantity + 1 }

/-- `cart_item.quantity = quantity` (`app.py` line 218). -/
def setQuantity (q : Int) (c : CartItem) : CartItem :=
  { c with quantity := q }

/-- `add_to_cart` (`app.py` lines 175-197): 404 when the product id does
not resolve; otherwise increment the existing (user, product) line or
create a fresh line with quantity 1.  Stock is never consulted. -/
def add_to_cart (current_user : Nat) (product_id : Nat) (db : DB) :
    Except Err DB :=
  match getProduct db.products product_id with
  | none => .error .notFound
  | some _ =>
      match db.cart_items.find?
          (fun c => c.user_id == current_user && c.product_id == product_id) with
      | some existing_item =>
          .ok { db with
                  cart_items := updateCartItem db.cart_items existing_item.id incQuantity }
      | none =>
          .ok { db with
                  cart_items := db.cart_items ++
                    [⟨db.next_cart_item_id, current_user, product_id, 1⟩],
                  next_cart_item_id := db.next_cart_item_id + 1 }

/-- `update_cart` (`app.py` lines 206-222): 404 when the line id does not
resolve, `Unauthorized` when the line belongs to another user; otherwise a
quantity ≤ 0 deletes the line and a positive quantity overwrites it. -/
def update_cart (current_user : Nat) (item_id : Nat) (quantity : Int)
    (db : DB) : Except Err DB :=
  match getCartItem db.cart_items item_id with
  | none => .error .notFound
  | some cart_item =>
      if cart_item.user_id ≠ current_user then .error .unauthorized
      else if quantity ≤ 0 then
        .ok { db with
                cart_items := db.cart_items.filter (fun c => !(c.id == item_id)) }
      else
        .ok { db with
                cart_items := updateCartItem db.cart_items item_id (setQuantity quantity) }

/-- `remove_from_cart` (`app.py` lines 224-235): 404 when the line id does
not resolve, `Unauthorized` when the line belongs to another user;
otherwise delete the line unconditionally. -/
def remove_from_cart (current_user : Nat) (item_id : Nat) (db : DB) :
    Except Err DB :=
  match getCartItem db.cart_items item_id with
  | none => .error .notFound
  | some cart_item =>
      if cart_item.user_id ≠ current_user then .error .unauthorized
      else
        .ok { db with
                cart_items := db.cart_items.filter (fun c => !(c.id == item_id)) }

/-- The price/quantity snapshot checkout takes of one cart line:
`(product_id, quantity, live price)`; `none` when the line's product does
not resolve (the Python code would raise on `cart_item.product.price`). -/
def lineSnapshot (ps : List Product) (c : CartItem) :
    Option (Nat × Int × ℚ) :=
  (getProduct ps c.product_id).map (fun p => (c.product_id, c.quantity, p.price))

/-- The snapshots of a whole cart, in cart order. -/
def lineSnapshots (ps : List Product) (cart : List CartItem) :
    Option (List (Nat × Int × ℚ)) :=
  cart.mapM (lineSnapshot ps)

/-- `total_amount = sum(item.quantity * item.product.price ...)`
(`app.py` line 250). -/
def snapTotal (snaps : List (Nat × Int × ℚ)) : ℚ :=
  (snaps.map (fun s => (s.2.1 : ℚ) * s.2.2)).sum

/-- The `OrderItem` rows created from the snapshots, with consecutive
fresh primary keys (`app.py` lines 264-271). -/
def mkOrderItems (firstId : Nat) (oid : Nat)
    (snaps : List (Nat × Int × ℚ)) : List OrderItem :=
  snaps.enum.map (fun e =>
    ⟨firstId + e.1, oid, e.2.1, e.2.2.1, e.2.2.2⟩)

/-- `product.stock -= quantity` (`app.py` line 275): only the stock field
changes. -/
def subStock (q : Int) (p : Product) : Product :=
  { p with stock := p.stock - q }

/-- The stock decrements of checkout (`app.py` lines 273-275): one
unvalidated `product.stock -= cart_item.quantity` per cart line. -/
def decStocks (ps : List Product) (cart : List CartItem) : List Product :=
  cart.foldl
    (fun acc c => updateProduct acc c.product_id (subStock c.quantity))
    ps

/-- `checkout` (`app.py` lines 237-291): reject an empty cart; otherwise
create one pending order totalling the live prices, snapshot each line
into an `OrderItem`, decrement each product's stock by the line quantity
(with no stock validation), clear the user's cart, and commit all of it
as one unit. -/
def checkout (current_user : Nat) (db : DB) : Except Err DB :=
  let cart := db.cart_items.filter (fun c => c.user_id == current_user)
  if cart.isEmpty then .error .emptyCart
  else
    match lineSnapshots db.products cart with
    | none => .error .productMissing
    | some snaps =>
        let oid := db.next_order_id
        .ok { db with
                orders := db.orders ++
                  [⟨oid, current_user, snapTotal snaps, "pending", db.now⟩],
                order_items := db.order_items ++
                  mkOrderItems db.next_order_item_id oid snaps,
                products := decStocks db.products cart,
                cart_items :=
                  db.cart_items.filter (fun c => !(c.user_id == current_user)),
                next_order_id := db.next_order_id + 1,
                next_order_item_id := db.next_order_item_id + snaps.length,
                now := db.now + 1 }

/-- `order_history` (`app.py` lines 293-297): the user's orders, newest
first by creation timestamp. -/
def order_history (current_user : Nat) (db : DB) : List Order :=
  (db.orders.filter (fun o => o.user_id == current_user)).mergeSort
    (fun a b => b.created_at ≤ a.created_at)

/-- The field overwrites of `admin_edit_product` (`app.py` lines 348-352):
name, description, price, stock and image are replaced, the id is kept. -/
def applyEdit (name description : String) (price : ℚ) (stock : Int)
    (image_url : String) (p : Product) : Product :=
  { p with
      name := name, description := description, price := price,
      stock := stock, image_url := image_url }

/-- `admin_edit_product` (`app.py` lines 341-358): 404 when the product id
does not resolve; otherwise overwrite name, description, price, stock and
image of that product row. -/
def admin_edit_product (product_id : Nat) (name description : String)
    (price : ℚ) (stock : Int) (image_url : String) (db : DB) :
    Except Err DB :=
  match getProduct db.products product_id with
  | none => .error .notFound
  | some _ =>
      .ok { db with
              products := updateProduct db.products product_id
                (applyEdit name description price stock image_url) }

/-- `admin_update_order_status` (`app.py` lines 431-439): 404 when the
order id does not resolve; otherwise unconditionally overwrite the status
with the submitted string. -/
def admin_update_order_status (order_id : Nat) (status : String) (db : DB) :
    Except Err DB :=
  match getOrder db.orders order_id with
  | none => .error .notFound
  | some _ =>
      .ok { db with
              orders := updateOrder db.orders order_id
                (fun o => { o with status := status }) }

/-- The cart line of a given (user, product) pair, as `add_to_cart`
queries it. -/
def lineOf (db : DB) (uid pid : Nat) : Option CartItem :=
  db.cart_items.find? (fun c => c.user_id == uid && c.product_id == pid)

/-- The stock of the product row with primary key `pid`. -/
def stockOf (ps : List Product) (pid : Nat) : Option Int :=
  (getProduct ps pid).map (fun p => p.stock)

/-- The live catalog price consulted by checkout for product `pid`
(defaulting to 0 when the row is absent; the theorems using it always
require the row to resolve). -/
def livePrice (ps : List Product) (pid : Nat) : ℚ :=
  (getProduct ps pid).elim 0 (fun p => p.price)

/-- Two products agreeing on everything except possibly the stock count. -/
def eqButStock (p p' : Product) : Prop :=
  p'.id = p.id ∧ p'.name = p.name ∧ p'.description = p.description ∧
    p'.price = p.price ∧ p'.image_url = p.image_url

/-- One invocation of a cart-mutating route: `add_to_cart`,
`update_cart`, or `remove_from_cart`, with the acting user. -/
inductive CartOp where
  | add (uid pid : Nat)
  | set (uid lineId : Nat) (q : Int)
  | del (uid lineId : Nat)
  deriving Repr, DecidableEq

/-- Run one cart operation; a failing request commits nothing (the handler
flashes an error and redirects), so the state is unchanged. -/
def applyOp (db : DB) : CartOp → DB
  | .add uid pid =>
      match add_to_cart uid pid db with
      | .ok db' => db'
      | .error _ => db
  | .set uid lineId q =>
      match update_cart uid lineId q db with
      | .ok db' => db'
      | .error _ => db
  | .del uid lineId =>
      match remove_from_cart uid lineId db with
      | .ok db' => db'
      | .error _ => db

/-- Run a sequence of cart operations in order. -/
def applyOps (db : DB) : List CartOp → DB
  | [] => db
  | op :: ops => applyOps (applyOp db op) ops

/-- The representation invariant of the cart table: at most one line per
(user, product) pair, pairwise-distinct primary keys, and every key below
the autoincrement counter. -/
def CartInv (db : DB) : Prop :=
  (db.cart_items.map (fun c => (c.user_id, c.product_id))).Nodup ∧
    (db.cart_items.map (fun c => c.id)).Nodup ∧
    ∀ c ∈ db.cart_items, c.id < db.next_cart_item_id

/-- A small concrete database used to exercise the theorems: two products,
a cart line of user 7 over product 1 (quantity 2) and one of user 8 over
product 2, one historical order of user 7 with one item. -/
def exDB : DB :=
  ⟨[⟨1, "Laptop", "hp laptop", 10, 5, "img1"⟩,
    ⟨2, "Phone", "small phone", 7, 4, "img2"⟩],
   [⟨1, 7, 1, 2⟩, ⟨2, 8, 2, 1⟩],
   [⟨1, 7, 99, "pending", 0⟩],
   [⟨1, 1, 2, 1, 7⟩],
   3, 2, 2, 1⟩

/-- A database whose single cart line asks for more units (2) than the
product has in stock (1). -/
def dbOversold : DB :=
  ⟨[⟨1, "Widget", "scarce", 10, 1, "img"⟩],
   [⟨1, 7, 1, 2⟩],
   [], [], 2, 1, 1, 0⟩

/-! ## Basic lemmas about `updateFirst` and `find?` -/

theorem length_updateFirst (p : α → Bool) (f : α → α) (l : List α) :
    (updateFirst p f l).length = l.length := by
  induction l with
  | nil => rfl
  | cons x rest ih =>
      by_cases hx : p x <;> simp [updateFirst, hx, ih]

theorem updateFirst_of_forall_not (p : α → Bool) (f : α → α) (l : List α)
    (h : ∀ x ∈ l, ¬ p x) : updateFirst p f l = l := by
  induction l with
  | nil => rfl
  | cons x rest ih =>
      have hx : ¬ p x := h x (by simp)
      simp [updateFirst, hx, ih (fun y hy => h y (by simp [hy]))]

/-- `updateFirst` rewrites exactly the position `find?` returns: every
position is either untouched, or holds `f` of the old element and that old
element is the `find?` result. -/
theorem updateFirst_getElem (p : α → Bool) (f : α → α) (l : List α)
    (i : Nat) (hi : i < l.length) :
    (updateFirst p f l).get ⟨i, by rw [length_updateFirst]; exact hi⟩ =
        l.get ⟨i, hi⟩ ∨
      ((updateFirst p f l).get ⟨i, by rw [length_updateFirst]; exact hi⟩ =
          f (l.get ⟨i, hi⟩) ∧
        l.find? p = some (l.get ⟨i, hi⟩)) := by
  induction l generalizing i with
  | nil => simp at hi
  | cons x rest ih =>
      by_cases hx : p x
      · cases i with
        | zero => right; simp [updateFirst, hx, List.find?_cons]
        | succ j => left; simp [updateFirst, hx]
      · cases i with
        | zero => left; simp [updateFirst, hx]
        | succ j =>
            have hj : j < rest.length := by simpa using hi
            rcases ih j hj with h | ⟨h1, h2⟩
            · left; simpa [updateFirst, hx] using h
            · right
              constructor
              · simpa [updateFirst, hx] using h1
              · simp [List.find?_cons, hx, h2]

/-- Searching for one key after updating another (the update preserving
the search predicate) finds the same row. -/
theorem find?_updateFirst_of_disjoint (p q : α → Bool) (f : α → α)
    (l : List α) (hdis : ∀ x, ¬ (p x ∧ q x)) (hf : ∀ x, q (f x) = q x) :
    (updateFirst p f l).find? q = l.find? q := by
  induction l with
  | nil => rfl
  | cons x rest ih =>
      by_cases hx : p x
      · have hq : ¬ q x := fun hqx => hdis x ⟨hx, hqx⟩
        have hq' : ¬ q (f x) := by rw [hf]; exact hq
        simp [updateFirst, hx, List.find?_cons, hq, hq']
      · by_cases hq : q x
        · simp [updateFirst, hx, List.find?_cons, hq]
        · simp [updateFirst, hx, List.find?_cons, hq, ih]

/-- Searching for the very key that was updated finds the updated row. -/
theorem find?_updateFirst_self (q : α → Bool) (f : α → α) (l : List α)
    (hf : ∀ x, q (f x) = q x) :
    (updateFirst q f l).find? q = (l.find? q).map f := by
  induction l with
  | nil => rfl
  | cons x rest ih =>
      by_cases hx : q x
      · have : q (f x) := by rw [hf]; exact hx
        simp [updateFirst, hx, List.find?_cons, this]
      · simp [updateFirst, hx, List.find?_cons, ih]

/-- A row not satisfying the update predicate survives the update as is. -/
theorem mem_updateFirst_of_not (p : α → Bool) (f : α → α) (l : List α)
    (x : α) (hx : x ∈ l) (hpx : ¬ p x) : x ∈ updateFirst p f l := by
  induction l with
  | nil => simp at hx
  | cons y rest ih =>
      by_cases hy : p y
      · rcases List.mem_cons.mp hx with rfl | hmem
        · exact absurd hy hpx
        · simp [updateFirst, hy, hmem]
      · rcases List.mem_cons.mp hx with rfl | hmem
        · simp [updateFirst, hy]
        · simp [updateFirst, hy, ih hmem]

/-! ## Lemmas about the stock decrement loop of checkout -/

theorem updateProduct_eq (ps : List Product) (pid : Nat)
    (f : Product → Product) :
    updateProduct ps pid f = updateFirst (fun p => p.id == pid) f ps := rfl

theorem decStocks_cons (ps : List Product) (c : CartItem)
    (cart : List CartItem) :
    decStocks ps (c :: cart) =
      decStocks (updateProduct ps c.product_id (subStock c.quantity)) cart :=
  rfl

theorem length_decStocks (ps : List Product) (cart : List CartItem) :
    (decStocks ps cart).length = ps.length := by
  induction cart generalizing ps with
  | nil => rfl
  | cons c rest ih =>
      rw [decStocks_cons, ih, updateProduct_eq, length_updateFirst]

theorem getProduct_updateProduct_ne (ps : List Product) (pid k : Nat)
    (f : Product → Product) (hf : ∀ p, (f p).id = p.id) (hne : k ≠ pid) :
    getProduct (updateProduct ps pid f) k = getProduct ps k := by
  unfold getProduct updateProduct
  exact find?_updateFirst_of_disjoint _ _ f ps
    (fun x ⟨h1, h2⟩ => hne (by
      have e1 : x.id = pid := by simpa using h1
      have e2 : x.id = k := by simpa using h2
      omega))
    (fun x => by simp [hf])

theorem getProduct_updateProduct_self (ps : List Product) (pid : Nat)
    (f : Product → Product) (hf : ∀ p, (f p).id = p.id) :
    getProduct (updateProduct ps pid f) pid = (getProduct ps pid).map f := by
  unfold getProduct updateProduct
  exact find?_updateFirst_self _ f ps (fun x => by simp [hf])

/-- A product referenced by no line of the cart keeps its row unchanged
under the stock decrement loop. -/
theorem getProduct_decStocks_of_not_mem (ps : List Product)
    (cart : List CartItem) (pid : Nat)
    (h : pid ∉ cart.map (fun c => c.product_id)) :
    getProduct (decStocks ps cart) pid = getProduct ps pid := by
  induction cart generalizing ps with
  | nil => rfl
  | cons c rest ih =>
      have hne : pid ≠ c.product_id := by simp at h; exact h.1
      rw [decStocks_cons, ih _ (by simp at h ⊢; exact h.2),
        getProduct_updateProduct_ne ps c.product_id pid (subStock c.quantity)
          (fun p => rfl) hne]

/-- With pairwise-distinct product ids in the cart, the stock decrement
loop decrements each referenced product's stock by exactly the quantity of
the one line referencing it. -/
theorem stockOf_decStocks_mem (ps : List Product) (cart : List CartItem)
    (hnd : (cart.map (fun c => c.product_id)).Nodup)
    (c : CartItem) (hc : c ∈ cart) :
    stockOf (decStocks ps cart) c.product_id =
      (stockOf ps c.product_id).map (fun s => s - c.quantity) := by
  induction cart generalizing ps with
  | nil => simp at hc
  | cons d rest ih =>
      have hnd' : (rest.map (fun x => x.product_id)).Nodup :=
        (List.nodup_cons.mp hnd).2
      have hdmem : d.product_id ∉ rest.map (fun x => x.product_id) :=
        (List.nodup_cons.mp hnd).1
      rcases List.mem_cons.mp hc with rfl | hmem
      · rw [decStocks_cons]
        unfold stockOf
        rw [getProduct_decStocks_of_not_mem _ _ _ hdmem,
          getProduct_updateProduct_self ps c.product_id (subStock c.quantity)
            (fun p => rfl)]
        cases getProduct ps c.product_id <;> rfl
      · have hne : c.product_id ≠ d.product_id := by
          intro he
          exact hdmem (he ▸ List.mem_map_of_mem (fun x => x.product_id) hmem)
        rw [decStocks_cons, ih _ hnd' hmem]
        unfold stockOf
        rw [getProduct_updateProduct_ne ps d.product_id c.product_id
          (subStock d.quantity) (fun p => rfl) hne]

theorem eqButStock_refl (p : Product) : eqButStock p p :=
  ⟨rfl, rfl, rfl, rfl, rfl⟩

theorem eqButStock_subStock (q : Int) (p : Product) :
    eqButStock p (subStock q p) :=
  ⟨rfl, rfl, rfl, rfl, rfl⟩

theorem eqButStock_trans {p q r : Product} (h1 : eqButStock p q)
    (h2 : eqButStock q r) : eqButStock p r := by
  obtain ⟨a1, a2, a3, a4, a5⟩ := h1
  obtain ⟨b1, b2, b3, b4, b5⟩ := h2
  exact ⟨b1.trans a1, b2.trans a2, b3.trans a3, b4.trans a4, b5.trans a5⟩

/-- Pointwise, the stock decrement loop touches no field but `stock`. -/
theorem decStocks_getElem_eqButStock (ps : List Product)
    (cart : List CartItem) (i : Nat) (hi : i < ps.length) :
    eqButStock (ps.get ⟨i, hi⟩)
      ((decStocks ps cart).get ⟨i, by rw [length_decStocks]; exact hi⟩) := by
  induction cart generalizing ps with
  | nil => exact eqButStock_refl _
  | cons c rest ih =>
      have hi1 : i < (updateProduct ps c.product_id
          (subStock c.quantity)).length := by
        rw [updateProduct_eq, length_updateFirst]; exact hi
      have hup : (updateProduct ps c.product_id
            (subStock c.quantity)).get ⟨i, hi1⟩ =
          (updateFirst (fun p => p.id == c.product_id)
            (subStock c.quantity) ps).get
              ⟨i, by rw [length_updateFirst]; exact hi⟩ := rfl
      have step := ih (updateProduct ps c.product_id (subStock c.quantity)) hi1
      refine eqButStock_trans ?_ step
      rcases updateFirst_getElem (fun p => p.id == c.product_id)
          (subStock c.quantity) ps i hi with h | ⟨h, _⟩
      · rw [hup, h]; exact eqButStock_refl _
      · rw [hup, h]; exact eqButStock_subStock _ _

/-- Pointwise, a product row whose id no cart line references is left
completely unchanged by the stock decrement loop. -/
theorem decStocks_getElem_of_not_mem (ps : List Product)
    (cart : List CartItem) (i : Nat) (hi : i < ps.length)
    (h : (ps.get ⟨i, hi⟩).id ∉ cart.map (fun c => c.product_id)) :
    (decStocks ps cart).get ⟨i, by rw [length_decStocks]; exact hi⟩ =
      ps.get ⟨i, hi⟩ := by
  induction cart generalizing ps with
  | nil => rfl
  | cons c rest ih =>
      have hne : (ps.get ⟨i, hi⟩).id ≠ c.product_id := by
        simp at h; exact h.1
      have hi1 : i < (updateProduct ps c.product_id
          (subStock c.quantity)).length := by
        rw [updateProduct_eq, length_updateFirst]; exact hi
      have hup : (updateProduct ps c.product_id
            (subStock c.quantity)).get ⟨i, hi1⟩ =
          (updateFirst (fun p => p.id == c.product_id)
            (subStock c.quantity) ps).get
              ⟨i, by rw [length_updateFirst]; exact hi⟩ := rfl
      have hhead : (updateProduct ps c.product_id
          (subStock c.quantity)).get ⟨i, hi1⟩ = ps.get ⟨i, hi⟩ := by
        rcases updateFirst_getElem (fun p => p.id == c.product_id)
            (subStock c.quantity) ps i hi with h' | ⟨_, hfind⟩
        · rw [hup, h']
        · exact absurd (by simpa using List.find?_some hfind) hne
      have hrec := ih (updateProduct ps c.product_id (subStock c.quantity)) hi1
        (by rw [hhead]; simp at h ⊢; exact h.2)
      rw [hhead] at hrec
      exact hrec

/-- With pairwise-distinct product ids in the cart, every row of the stock
decrement loop's output is either the old row, or the old row with its
stock decremented by the quantity of the (unique) cart line whose product
lookup resolves to that row. -/
theorem decStocks_getElem_characterization (ps : List Product)
    (cart : List CartItem)
    (hnd : (cart.map (fun c => c.product_id)).Nodup)
    (i : Nat) (hi : i < ps.length) :
    (decStocks ps cart).get ⟨i, by rw [length_decStocks]; exact hi⟩ =
        ps.get ⟨i, hi⟩ ∨
      ∃ c ∈ cart,
        (decStocks ps cart).get ⟨i, by rw [length_decStocks]; exact hi⟩ =
          subStock c.quantity (ps.get ⟨i, hi⟩) ∧
        getProduct ps c.product_id = some (ps.get ⟨i, hi⟩) := by
  induction cart generalizing ps with
  | nil => left; rfl
  | cons c rest ih =>
      have hnd' : (rest.map (fun x => x.product_id)).Nodup :=
        (List.nodup_cons.mp hnd).2
      have hdmem : c.product_id ∉ rest.map (fun x => x.product_id) :=
        (List.nodup_cons.mp hnd).1
      have hi1 : i < (updateProduct ps c.product_id
          (subStock c.quantity)).length := by
        rw [updateProduct_eq, length_updateFirst]; exact hi
      have hup : (updateProduct ps c.product_id
            (subStock c.quantity)).get ⟨i, hi1⟩ =
          (updateFirst (fun p => p.id == c.product_id)
            (subStock c.quantity) ps).get
              ⟨i, by rw [length_updateFirst]; exact hi⟩ := rfl
      rcases ih (updateProduct ps c.product_id (subStock c.quantity)) hnd' hi1
        with hL | ⟨c', hc', heq, hfind⟩ <;>
        rcases updateFirst_getElem (fun p => p.id == c.product_id)
          (subStock c.quantity) ps i hi with hH | ⟨hH, hfind0⟩
      · left
        exact hL.trans (hup.trans hH)
      · right
        exact ⟨c, List.mem_cons_self _ _, hL.trans (hup.trans hH), hfind0⟩
      · right
        have hne : c'.product_id ≠ c.product_id := fun he =>
          hdmem (he ▸ List.mem_map_of_mem (fun x => x.product_id) hc')
        refine ⟨c', List.mem_cons_of_mem _ hc', ?_, ?_⟩
        · exact heq.trans (congrArg (subStock c'.quantity) (hup.trans hH))
        · exact ((getProduct_updateProduct_ne ps c.product_id c'.product_id
              (subStock c.quantity) (fun p => rfl) hne).symm.trans
            hfind).trans (congrArg some (hup.trans hH))
      · exfalso
        have e1 : (ps.get ⟨i, hi⟩).id = c.product_id := by
          simpa using List.find?_some hfind0
        have e2 : ((updateProduct ps c.product_id
            (subStock c.quantity)).get ⟨i, hi1⟩).id = c'.product_id := by
          simpa [getProduct] using List.find?_some hfind
        have e3 : ((updateProduct ps c.product_id
            (subStock c.quantity)).get ⟨i, hi1⟩).id =
            (ps.get ⟨i, hi⟩).id := by
          rw [hup, hH]; rfl
        have hne : c'.product_id ≠ c.product_id := fun he =>
          hdmem (he ▸ List.mem_map_of_mem (fun x => x.product_id) hc')
        exact hne (by rw [← e2, e3, e1])

/-! ## Further list lemmas for the cart operations -/

theorem map_updateFirst_eq (p : α → Bool) (f : α → α) (g : α → β)
    (l : List α) (hg : ∀ x, g (f x) = g x) :
    (updateFirst p f l).map g = l.map g := by
  induction l with
  | nil => rfl
  | cons x rest ih =>
      by_cases hx : p x <;> simp [updateFirst, hx, hg, ih]

theorem mem_updateFirst (p : α → Bool) (f : α → α) (l : List α) (y : α)
    (hy : y ∈ updateFirst p f l) : ∃ x ∈ l, y = x ∨ y = f x := by
  induction l with
  | nil => simp [updateFirst] at hy
  | cons x rest ih =>
      by_cases hx : p x
      · simp only [updateFirst, hx, if_pos] at hy
        rcases List.mem_cons.mp hy with rfl | hmem
        · exact ⟨x, by simp, Or.inr rfl⟩
        · exact ⟨y, by simp [hmem], Or.inl rfl⟩
      · simp only [updateFirst, hx, if_neg, Bool.false_eq_true,
          not_false_iff] at hy
        rcases List.mem_cons.mp hy with rfl | hmem
        · exact ⟨y, by simp, Or.inl rfl⟩
        · obtain ⟨x', hx', hor⟩ := ih hmem
          exact ⟨x', by simp [hx'], hor⟩

theorem find?_append_of_none (p : α → Bool) (l₁ l₂ : List α)
    (h : l₁.find? p = none) : (l₁ ++ l₂).find? p = l₂.find? p := by
  induction l₁ with
  | nil => rfl
  | cons x rest ih =>
      cases hx : p x with
      | true => simp [List.find?_cons, hx] at h
      | false =>
          simp only [List.cons_append, List.find?_cons, hx] at h ⊢
          exact ih h

/-- When every cart line's product resolves, checkout's snapshot pass
yields exactly the per-line live lookups. -/
theorem lineSnapshots_of_resolving (ps : List Product)
    (cart : List CartItem)
    (h : ∀ c ∈ cart, (getProduct ps c.product_id).isSome) :
    lineSnapshots ps cart =
      some (cart.map (fun c =>
        (c.product_id, c.quantity, livePrice ps c.product_id))) := by
  induction cart with
  | nil => rfl
  | cons c rest ih =>
      obtain ⟨p, hp⟩ := Option.isSome_iff_exists.mp (h c (by simp))
      have hrest := ih (fun c' hc' => h c' (by simp [hc']))
      unfold lineSnapshots at hrest ⊢
      rw [List.mapM_cons, hrest]
      simp [lineSnapshot, livePrice, hp]

/-- Incrementing the line `find?` located (by its primary key) makes the
pair lookup see the incremented line, as long as primary keys are
pairwise distinct and the update keeps user and product. -/
theorem find?_pair_updateFirst_found (l : List CartItem) (uid pid : Nat)
    (f : CartItem → CartItem)
    (hfu : ∀ c, (f c).user_id = c.user_id)
    (hfp : ∀ c, (f c).product_id = c.product_id)
    (c0 : CartItem)
    (hfound : l.find?
      (fun c => c.user_id == uid && c.product_id == pid) = some c0)
    (hids : (l.map (fun c => c.id)).Nodup) :
    (updateFirst (fun c => c.id == c0.id) f l).find?
      (fun c => c.user_id == uid && c.product_id == pid) = some (f c0) := by
  induction l with
  | nil => simp at hfound
  | cons x rest ih =>
      rw [List.find?_cons] at hfound
      cases hx : (x.user_id == uid && x.product_id == pid) with
      | true =>
          rw [hx] at hfound
          obtain rfl : x = c0 := by simpa using hfound
          have hpx : (x.id == x.id) = true := by simp
          have : (f x).user_id == uid && (f x).product_id == pid := by
            rw [hfu, hfp]; exact hx
          simp [updateFirst, hpx, List.find?_cons, this]
      | false =>
          rw [hx] at hfound
          have hc0mem : c0 ∈ rest := List.mem_of_find?_eq_some hfound
          have hids' : (x.id :: rest.map (fun c => c.id)).Nodup := by
            rw [List.map_cons] at hids; exact hids
          have hxid : x.id ≠ c0.id := by
            intro he
            exact (List.nodup_cons.mp hids').1
              (he ▸ List.mem_map_of_mem (fun c => c.id) hc0mem)
          have hpx : (x.id == c0.id) = false := by simpa using hxid
          have hrec := ih hfound (List.nodup_cons.mp hids').2
          simp [updateFirst, hpx, List.find?_cons, hx, hrec]

/-- A `Nodup` projection bounds the number of lines matching a fixed
(user, product) pair by one. -/
theorem countP_pair_le_one (l : List CartItem)
    (h : (l.map (fun c => (c.user_id, c.product_id))).Nodup)
    (uid pid : Nat) :
    l.countP (fun c => c.user_id == uid && c.product_id == pid) ≤ 1 := by
  induction l with
  | nil => simp
  | cons x rest ih =>
      have h' : ((x.user_id, x.product_id) ::
          rest.map (fun c => (c.user_id, c.product_id))).Nodup := by
        rw [List.map_cons] at h; exact h
      have hx : (x.user_id, x.product_id) ∉
          rest.map (fun c => (c.user_id, c.product_id)) :=
        (List.nodup_cons.mp h').1
      have hrest := ih (List.nodup_cons.mp h').2
      rw [List.countP_cons]
      cases hpx : (x.user_id == uid && x.product_id == pid) with
      | false => simpa using hrest
      | true =>
          have hzero : rest.countP
              (fun c => c.user_id == uid && c.product_id == pid) = 0 := by
            rw [List.countP_eq_zero]
            intro c hc hcp
            apply hx
            have e1 : x.user_id = uid ∧ x.product_id = pid := by
              simpa using hpx
            have e2 : c.user_id = uid ∧ c.product_id = pid := by
              simpa using hcp
            have : (c.user_id, c.product_id) = (x.user_id, x.product_id) := by
              rw [e1.1, e1.2, e2.1, e2.2]
            exact this ▸ List.mem_map_of_mem (fun c => (c.user_id, c.product_id)) hc
          simp [hzero]

/-! ## Claim C3: checkout on an empty cart -/

/-- C3: for a user whose cart has zero lines, checkout fails with
`EmptyCart`.  The handler returns before any `db.session` write, which the
pure model renders as an error result carrying no successor state: the
Order, OrderItem, Product and CartItem tables are exactly those of `db`. -/
theorem checkout_empty_cart_fails (db : DB) (uid : Nat)
    (h : db.cart_items.filter (fun c => c.user_id == uid) = []) :
    checkout uid db = .error .emptyCart := by
  simp [checkout, h]

/-- Witness: user 5 of `exDB` has no cart lines; checkout rejects. -/
theorem checkout_empty_cart_fails_witness :
    checkout 5 exDB = .error .emptyCart :=
  checkout_empty_cart_fails exDB 5 (by decide)

/-! ## Claim C7: ownership enforcement on cart lines -/

/-- C7: `update_cart` and `remove_from_cart` on a cart line owned by user
A, invoked as any user B ≠ A, fail with `Unauthorized`.  The handlers
return before any session write, so (in the pure model) the line's
existence and quantity are untouched. -/
theorem ownership_enforced (db : DB) (lineId A B : Nat) (q : Int)
    (c : CartItem) (hfind : getCartItem db.cart_items lineId = some c)
    (hA : c.user_id = A) (hB : B ≠ A) :
    update_cart B lineId q db = .error .unauthorized ∧
      remove_from_cart B lineId db = .error .unauthorized := by
  have hne : c.user_id ≠ B := by rw [hA]; exact fun he => hB he.symm
  constructor
  · simp [update_cart, hfind, hne]
  · simp [remove_from_cart, hfind, hne]

/-- Witness: line 1 of `exDB` belongs to user 7; user 8 is rejected. -/
theorem ownership_enforced_witness :
    update_cart 8 1 5 exDB = .error .unauthorized ∧
      remove_from_cart 8 1 exDB = .error .unauthorized :=
  ownership_enforced exDB 1 7 8 5 ⟨1, 7, 1, 2⟩ (by decide) (by decide)
    (by decide)

/-! ## Claim C8: price snapshots are immune to admin product edits -/

/-- C8: an admin edit of an existing product — overwriting name,
description, price (to any value), stock and image — leaves every
OrderItem row and every Order row exactly as it was: order items are
frozen at creation.  The edited product row carries exactly the submitted
fields afterwards. -/
theorem admin_edit_keeps_order_items (db : DB) (pid : Nat)
    (n d img : String) (pr : ℚ) (st : Int)
    (p0 : Product) (hp : getProduct db.products pid = some p0) :
    ∃ db', admin_edit_product pid n d pr st img db = .ok db' ∧
      db'.order_items = db.order_items ∧
      db'.orders = db.orders ∧
      db'.cart_items = db.cart_items ∧
      getProduct db'.products pid = some ⟨p0.id, n, d, pr, st, img⟩ := by
  simp only [admin_edit_product, hp]
  refine ⟨_, rfl, rfl, rfl, rfl, ?_⟩
  have h1 := getProduct_updateProduct_self db.products pid
    (applyEdit n d pr st img) (fun p => rfl)
  rw [h1, hp]
  rfl

/-- Witness: editing product 1 of `exDB` to price 123 leaves the
historical order item (price 7) alone. -/
theorem admin_edit_keeps_order_items_witness :
    ∃ db', admin_edit_product 1 "X" "Y" 123 9 "Z" exDB = .ok db' ∧
      db'.order_items = exDB.order_items ∧
      db'.orders = exDB.orders ∧
      db'.cart_items = exDB.cart_items ∧
      getProduct db'.products 1 = some ⟨1, "X", "Y", 123, 9, "Z"⟩ :=
  admin_edit_keeps_order_items exDB 1 "X" "Y" "Z" 123 9
    ⟨1, "Laptop", "hp laptop", 10, 5, "img1"⟩ rfl

/-! ## Claim C9: admin status update -/

/-- C9: `admin_update_order_status` on an existing order overwrites its
status with exactly the submitted string — any string, no enum check —
and changes nothing else: the order keeps its user, total and creation
timestamp, every OrderItem row and every other order survive unchanged,
and the updated order (with its new status) appears in the owner's
`order_history` listing. -/
theorem admin_update_status_overwrites (db : DB) (oid : Nat) (st : String)
    (o0 : Order) (hfind : getOrder db.orders oid = some o0) :
    ∃ db', admin_update_order_status oid st db = .ok db' ∧
      getOrder db'.orders oid =
        some ⟨o0.id, o0.user_id, o0.total_amount, st, o0.created_at⟩ ∧
      db'.order_items = db.order_items ∧
      db'.products = db.products ∧
      db'.cart_items = db.cart_items ∧
      (∀ o ∈ db.orders, o.id ≠ oid → o ∈ db'.orders) ∧
      (⟨o0.id, o0.user_id, o0.total_amount, st, o0.created_at⟩ : Order) ∈
        order_history o0.user_id db' := by
  simp only [admin_update_order_status, hfind]
  have h1 := find?_updateFirst_self (fun o => o.id == oid)
    (fun o => { o with status := st }) db.orders (fun x => rfl)
  have h2 : getOrder (updateOrder db.orders oid
      (fun o => { o with status := st })) oid =
      some ⟨o0.id, o0.user_id, o0.total_amount, st, o0.created_at⟩ := by
    show (updateFirst (fun o => o.id == oid) _ db.orders).find?
      (fun o => o.id == oid) = _
    rw [h1]
    rw [show db.orders.find? (fun o => o.id == oid) = some o0 from hfind]
    rfl
  refine ⟨_, rfl, h2, rfl, rfl, rfl, ?_, ?_⟩
  · intro o hmem hne
    exact mem_updateFirst_of_not _ _ _ o hmem (by simpa using hne)
  · have hmem : (⟨o0.id, o0.user_id, o0.total_amount, st, o0.created_at⟩ :
        Order) ∈ updateOrder db.orders oid (fun o => { o with status := st }) :=
      List.mem_of_find?_eq_some h2
    have hfil : (⟨o0.id, o0.user_id, o0.total_amount, st, o0.created_at⟩ :
        Order) ∈ (updateOrder db.orders oid
          (fun o => { o with status := st })).filter
            (fun o => o.user_id == o0.user_id) :=
      List.mem_filter.mpr ⟨hmem, by simp⟩
    exact (List.mergeSort_perm _ _).mem_iff.mpr hfil

/-- Witness: order 1 of `exDB` (owner 7), set to the free-form string
"not-a-status", which no enum rejects. -/
theorem admin_update_status_overwrites_witness :
    ∃ db', admin_update_order_status 1 "not-a-status" exDB = .ok db' ∧
      getOrder db'.orders 1 = some ⟨1, 7, 99, "not-a-status", 0⟩ ∧
      db'.order_items = exDB.order_items ∧
      db'.products = exDB.products ∧
      db'.cart_items = exDB.cart_items ∧
      (∀ o ∈ exDB.orders, o.id ≠ 1 → o ∈ db'.orders) ∧
      (⟨1, 7, 99, "not-a-status", 0⟩ : Order) ∈ order_history 7 db' :=
  admin_update_status_overwrites exDB 1 "not-a-status"
    ⟨1, 7, 99, "pending", 0⟩ rfl

/-! ## Claim C6: setQuantity deletes at ≤ 0, overwrites at ≥ 1 -/

/-- C6: on a cart line the caller owns, `update_cart` with quantity ≤ 0
deletes the line, and with quantity ≥ 1 overwrites the stored quantity
with exactly the submitted value (it never adds to it).  No hypothesis
constrains any stock value: no upper bound against available stock is
enforced.  Products, orders and order items are untouched, and every other
cart line survives. -/
theorem setQuantity_deletes_or_overwrites (db : DB) (uid lineId : Nat)
    (q : Int) (c : CartItem)
    (hfind : getCartItem db.cart_items lineId = some c)
    (hown : c.user_id = uid) :
    (q ≤ 0 → ∃ db', update_cart uid lineId q db = .ok db' ∧
      getCartItem db'.cart_items lineId = none ∧
      db'.products = db.products ∧ db'.orders = db.orders ∧
      db'.order_items = db.order_items ∧
      ∀ c' ∈ db.cart_items, c'.id ≠ lineId → c' ∈ db'.cart_items) ∧
    (1 ≤ q → ∃ db', update_cart uid lineId q db = .ok db' ∧
      getCartItem db'.cart_items lineId =
        some ⟨c.id, c.user_id, c.product_id, q⟩ ∧
      db'.products = db.products ∧ db'.orders = db.orders ∧
      db'.order_items = db.order_items ∧
      ∀ c' ∈ db.cart_items, c'.id ≠ lineId → c' ∈ db'.cart_items) := by
  constructor
  · intro hq
    have hstep : update_cart uid lineId q db =
        .ok { db with cart_items :=
          db.cart_items.filter (fun c' => !(c'.id == lineId)) } := by
      simp [update_cart, hfind, hown, hq]
    refine ⟨_, hstep, ?_, rfl, rfl, rfl, ?_⟩
    · unfold getCartItem
      rw [List.find?_eq_none]
      intro x hx
      simpa using (List.mem_filter.mp hx).2
    · intro c' hc' hne
      exact List.mem_filter.mpr ⟨hc', by simpa using hne⟩
  · intro hq
    have hq' : ¬ (q ≤ 0) := by omega
    have hstep : update_cart uid lineId q db =
        .ok { db with cart_items := updateCartItem db.cart_items lineId (setQuantity q) } := by
      simp [update_cart, hfind, hown, hq']
    refine ⟨_, hstep, ?_, rfl, rfl, rfl, ?_⟩
    · have h1 := find?_updateFirst_self (fun c' => c'.id == lineId)
        (setQuantity q) db.cart_items (fun x => rfl)
      show (updateFirst (fun c' => c'.id == lineId) _ db.cart_items).find?
        (fun c' => c'.id == lineId) = _
      rw [h1, show db.cart_items.find? (fun c' => c'.id == lineId) = some c
        from hfind]
      rfl
    · intro c' hc' hne
      exact mem_updateFirst_of_not _ _ _ c' hc' (by simpa using hne)

/-- Witness: on line 1 of `exDB` (owner 7, quantity 2, product stock 5),
quantity 0 deletes the line and quantity 50 — far beyond the stock of 5 —
is stored verbatim. -/
theorem setQuantity_deletes_or_overwrites_witness :
    (∃ db', update_cart 7 1 0 exDB = .ok db' ∧
      getCartItem db'.cart_items 1 = none ∧
      db'.products = exDB.products ∧ db'.orders = exDB.orders ∧
      db'.order_items = exDB.order_items ∧
      ∀ c' ∈ exDB.cart_items, c'.id ≠ 1 → c' ∈ db'.cart_items) ∧
    (∃ db', update_cart 7 1 50 exDB = .ok db' ∧
      getCartItem db'.cart_items 1 = some ⟨1, 7, 1, 50⟩ ∧
      db'.products = exDB.products ∧ db'.orders = exDB.orders ∧
      db'.order_items = exDB.order_items ∧
      ∀ c' ∈ exDB.cart_items, c'.id ≠ 1 → c' ∈ db'.cart_items) :=
  ⟨(setQuantity_deletes_or_overwrites exDB 7 1 0 ⟨1, 7, 1, 2⟩ rfl rfl).1
      (by decide),
    (setQuantity_deletes_or_overwrites exDB 7 1 50 ⟨1, 7, 1, 2⟩ rfl rfl).2
      (by decide)⟩

/-! ## Claim C5: add-to-cart semantics -/

/-- C5: `add_to_cart` fails with `NotFound` when the product id does not
resolve (and commits nothing); when the product exists and a line for the
(user, product) pair exists, it increments that line's quantity by exactly
1; when no such line exists, it appends a fresh line with quantity 1.  No
hypothesis mentions any stock value: stock is never checked at add time,
so the call succeeds even when the resulting quantity exceeds stock. -/
theorem add_to_cart_semantics (db : DB) (uid pid : Nat)
    (hids : (db.cart_items.map (fun c => c.id)).Nodup) :
    (getProduct db.products pid = none →
      add_to_cart uid pid db = .error .notFound) ∧
    (∀ p0, getProduct db.products pid = some p0 →
      (∀ c0, lineOf db uid pid = some c0 →
        ∃ db', add_to_cart uid pid db = .ok db' ∧
          lineOf db' uid pid =
            some ⟨c0.id, c0.user_id, c0.product_id, c0.quantity + 1⟩ ∧
          db'.products = db.products ∧ db'.orders = db.orders ∧
          db'.order_items = db.order_items ∧
          db'.cart_items.length = db.cart_items.length ∧
          ∀ c' ∈ db.cart_items, c'.id ≠ c0.id → c' ∈ db'.cart_items) ∧
      (lineOf db uid pid = none →
        ∃ db', add_to_cart uid pid db = .ok db' ∧
          db'.cart_items = db.cart_items ++
            [⟨db.next_cart_item_id, uid, pid, 1⟩] ∧
          lineOf db' uid pid = some ⟨db.next_cart_item_id, uid, pid, 1⟩ ∧
          db'.products = db.products ∧ db'.orders = db.orders ∧
          db'.order_items = db.order_items)) := by
  refine ⟨?_, ?_⟩
  · intro hp
    simp [add_to_cart, hp]
  · intro p0 hp
    constructor
    · intro c0 hc0
      have hc0' : db.cart_items.find?
          (fun c => c.user_id == uid && c.product_id == pid) = some c0 := hc0
      have hstep : add_to_cart uid pid db =
          .ok { db with cart_items := updateCartItem db.cart_items c0.id incQuantity } := by
        simp [add_to_cart, hp, hc0']
      refine ⟨_, hstep, ?_, rfl, rfl, rfl, ?_, ?_⟩
      · exact find?_pair_updateFirst_found db.cart_items uid pid
          incQuantity (fun c => rfl) (fun c => rfl) c0 hc0' hids
      · exact length_updateFirst _ _ _
      · intro c' hc' hne
        exact mem_updateFirst_of_not _ _ _ c' hc' (by simpa using hne)
    · intro hnone
      have hn' : db.cart_items.find?
          (fun c => c.user_id == uid && c.product_id == pid) = none := hnone
      have hstep : add_to_cart uid pid db =
          .ok { db with
                  cart_items := db.cart_items ++ [⟨db.next_cart_item_id, uid, pid, 1⟩],
                  next_cart_item_id := db.next_cart_item_id + 1 } := by
        simp [add_to_cart, hp, hn']
      refine ⟨_, hstep, rfl, ?_, rfl, rfl, rfl⟩
      show (db.cart_items ++
          [(⟨db.next_cart_item_id, uid, pid, 1⟩ : CartItem)]).find?
        (fun c => c.user_id == uid && c.product_id == pid) = _
      rw [find?_append_of_none _ _ _ hn']
      simp [List.find?_cons]

/-- Witness: product 9 does not exist in `exDB` (`NotFound`); adding
product 1 in `dbOversold` bumps the existing line from quantity 2 to 3
although only 1 unit is in stock; adding product 2 in `exDB` for user 7
creates a fresh line with quantity 1. -/
theorem add_to_cart_semantics_witness :
    (add_to_cart 7 9 exDB = .error .notFound) ∧
    (∃ db', add_to_cart 7 1 dbOversold = .ok db' ∧
      lineOf db' 7 1 = some ⟨1, 7, 1, 3⟩ ∧
      db'.products = dbOversold.products ∧ db'.orders = dbOversold.orders ∧
      db'.order_items = dbOversold.order_items ∧
      db'.cart_items.length = dbOversold.cart_items.length ∧
      ∀ c' ∈ dbOversold.cart_items, c'.id ≠ 1 → c' ∈ db'.cart_items) ∧
    (∃ db', add_to_cart 7 2 exDB = .ok db' ∧
      db'.cart_items = exDB.cart_items ++ [⟨3, 7, 2, 1⟩] ∧
      lineOf db' 7 2 = some ⟨3, 7, 2, 1⟩ ∧
      db'.products = exDB.products ∧ db'.orders = exDB.orders ∧
      db'.order_items = exDB.order_items) :=
  ⟨(add_to_cart_semantics exDB 7 9 (by decide)).1 rfl,
    ((add_to_cart_semantics dbOversold 7 1 (by decide)).2
        ⟨1, "Widget", "scarce", 10, 1, "img"⟩ rfl).1 ⟨1, 7, 1, 2⟩ rfl,
    ((add_to_cart_semantics exDB 7 2 (by decide)).2
        ⟨2, "Phone", "small phone", 7, 4, "img2"⟩ rfl).2 rfl⟩

/-! ## Claim C1: the checkout postconditions -/

/-- The specified total of a user's cart: the sum over its lines of
quantity × the product's live catalog price. -/
def cartTotalSpec (ps : List Product) (cart : List CartItem) : ℚ :=
  (cart.map (fun c => (c.quantity : ℚ) * livePrice ps c.product_id)).sum

/-- The specified order-item snapshots of a user's cart: the i-th row
carries the i-th line's product id and quantity and the product's live
price, under consecutive fresh primary keys. -/
def cartItemsSpec (firstId oid : Nat) (ps : List Product)
    (cart : List CartItem) : List OrderItem :=
  cart.enum.map (fun e =>
    ⟨firstId + e.1, oid, e.2.product_id, e.2.quantity,
      livePrice ps e.2.product_id⟩)

/-- C1: for a user whose cart has `N ≥ 1` lines, each resolving to an
existing product, with at most one line per product (the invariant the
cart operations maintain), checkout succeeds and appends exactly one new
Order — status `pending`, owned by that user, with `total_amount` equal to
the sum over the cart lines of quantity times the price at call time —
appends exactly `N` OrderItem rows, the i-th snapshotting the i-th line's
(product id, quantity, price at call time), decrements every referenced
product's stock by exactly that line's quantity, and leaves the user's
cart empty. -/
theorem checkout_success_postconditions (db : DB) (uid : Nat)
    (hne : db.cart_items.filter (fun c => c.user_id == uid) ≠ [])
    (hres : ∀ c ∈ db.cart_items.filter (fun c => c.user_id == uid),
      (getProduct db.products c.product_id).isSome)
    (hnd : ((db.cart_items.filter (fun c => c.user_id == uid)).map
      (fun c => c.product_id)).Nodup) :
    ∃ db', checkout uid db = .ok db' ∧
      db'.orders = db.orders ++
        [(⟨db.next_order_id, uid,
            cartTotalSpec db.products
              (db.cart_items.filter (fun c => c.user_id == uid)),
            "pending", db.now⟩ : Order)] ∧
      db'.order_items = db.order_items ++
        cartItemsSpec db.next_order_item_id db.next_order_id db.products
          (db.cart_items.filter (fun c => c.user_id == uid)) ∧
      db'.order_items.length = db.order_items.length +
        (db.cart_items.filter (fun c => c.user_id == uid)).length ∧
      (∀ c ∈ db.cart_items.filter (fun c => c.user_id == uid),
        stockOf db'.products c.product_id =
          (stockOf db.products c.product_id).map (fun s => s - c.quantity)) ∧
      db'.cart_items.filter (fun c => c.user_id == uid) = [] := by
  have hemp : (db.cart_items.filter (fun c => c.user_id == uid)).isEmpty =
      false := by
    cases hl : db.cart_items.filter (fun c => c.user_id == uid) with
    | nil => exact absurd hl hne
    | cons x xs => rfl
  have hsnap := lineSnapshots_of_resolving db.products
    (db.cart_items.filter (fun c => c.user_id == uid)) hres
  have hT : snapTotal ((db.cart_items.filter (fun c => c.user_id == uid)).map
      (fun c => (c.product_id, c.quantity, livePrice db.products c.product_id))) =
      cartTotalSpec db.products
        (db.cart_items.filter (fun c => c.user_id == uid)) := by
    unfold snapTotal cartTotalSpec
    rw [List.map_map]
    rfl
  have hI : mkOrderItems db.next_order_item_id db.next_order_id
      ((db.cart_items.filter (fun c => c.user_id == uid)).map
        (fun c => (c.product_id, c.quantity, livePrice db.products c.product_id))) =
      cartItemsSpec db.next_order_item_id db.next_order_id db.products
        (db.cart_items.filter (fun c => c.user_id == uid)) := by
    unfold mkOrderItems cartItemsSpec
    rw [List.enum_map, List.map_map]
    rfl
  have hclr : ∀ l : List CartItem,
      (l.filter (fun c => !(c.user_id == uid))).filter
        (fun c => c.user_id == uid) = [] := by
    intro l
    induction l with
    | nil => rfl
    | cons x r ih => by_cases hx : x.user_id == uid <;> simp [hx, ih]
  have hck : checkout uid db = .ok { db with
      orders := db.orders ++
        [(⟨db.next_order_id, uid,
            cartTotalSpec db.products
              (db.cart_items.filter (fun c => c.user_id == uid)),
            "pending", db.now⟩ : Order)],
      order_items := db.order_items ++
        cartItemsSpec db.next_order_item_id db.next_order_id db.products
          (db.cart_items.filter (fun c => c.user_id == uid)),
      products := decStocks db.products
        (db.cart_items.filter (fun c => c.user_id == uid)),
      cart_items := db.cart_items.filter (fun c => !(c.user_id == uid)),
      next_order_id := db.next_order_id + 1,
      next_order_item_id := db.next_order_item_id +
        ((db.cart_items.filter (fun c => c.user_id == uid)).map
          (fun c => (c.product_id, c.quantity,
            livePrice db.products c.product_id))).length,
      now := db.now + 1 } := by
    simp only [checkout, hemp, hsnap, hT, hI, Bool.false_eq_true, if_false]
  refine ⟨_, hck, rfl, rfl, ?_, ?_, hclr db.cart_items⟩
  · show (db.order_items ++ cartItemsSpec db.next_order_item_id
      db.next_order_id db.products
      (db.cart_items.filter (fun c => c.user_id == uid))).length = _
    rw [List.length_append]
    unfold cartItemsSpec
    rw [List.length_map, List.enum_length]
  · intro c hc
    exact stockOf_decStocks_mem db.products _ hnd c hc

/-- Witness: user 7 of `exDB` has the single cart line (product 1,
quantity 2, price 10); checkout appends one pending order totalling
2 × 10, one snapshot item, decrements stock 5 ↦ 3 and clears the cart. -/
theorem checkout_success_postconditions_witness :
    ∃ db', checkout 7 exDB = .ok db' ∧
      db'.orders = exDB.orders ++
        [(⟨2, 7,
            cartTotalSpec exDB.products
              (exDB.cart_items.filter (fun c => c.user_id == 7)),
            "pending", 1⟩ : Order)] ∧
      db'.order_items = exDB.order_items ++
        cartItemsSpec 2 2 exDB.products
          (exDB.cart_items.filter (fun c => c.user_id == 7)) ∧
      db'.order_items.length = exDB.order_items.length +
        (exDB.cart_items.filter (fun c => c.user_id == 7)).length ∧
      (∀ c ∈ exDB.cart_items.filter (fun c => c.user_id == 7),
        stockOf db'.products c.product_id =
          (stockOf exDB.products c.product_id).map (fun s => s - c.quantity)) ∧
      db'.cart_items.filter (fun c => c.user_id == 7) = [] :=
  checkout_success_postconditions exDB 7 (by decide) (by decide) (by decide)

/-! ## Claim C10: the frame of a successful checkout -/

/-- C10: a successful checkout modifies, among the product rows, only the
stock of those referenced by the acting user's cart lines — the catalog's
length and order are preserved, every row keeps its id, name, description,
price and image, a row referenced by no line of that user's cart is
completely unchanged — and the cart lines of every other user survive (the
new cart table is exactly the old one minus the acting user's lines). -/
theorem checkout_frame (db : DB) (uid : Nat) (db' : DB)
    (h : checkout uid db = .ok db') :
    db'.cart_items = db.cart_items.filter (fun c => !(c.user_id == uid)) ∧
      (∀ c ∈ db.cart_items, c.user_id ≠ uid → c ∈ db'.cart_items) ∧
      db'.products.length = db.products.length ∧
      (∀ i, ∀ hi : i < db.products.length, ∀ hi' : i < db'.products.length,
        eqButStock db.products[i] db'.products[i] ∧
        (db.products[i].id ∉ (db.cart_items.filter
            (fun c => c.user_id == uid)).map (fun c => c.product_id) →
          db'.products[i] = db.products[i])) := by
  simp only [checkout] at h
  by_cases hemp : (db.cart_items.filter (fun c => c.user_id == uid)).isEmpty =
      true
  · simp [hemp] at h
  · have hemp' : (db.cart_items.filter
        (fun c => c.user_id == uid)).isEmpty = false :=
      Bool.eq_false_iff.mpr hemp
    rw [hemp'] at h
    simp only [Bool.false_eq_true, if_false] at h
    cases hsn : lineSnapshots db.products
        (db.cart_items.filter (fun c => c.user_id == uid)) with
    | none => rw [hsn] at h; simp at h
    | some snaps =>
        rw [hsn] at h
        simp only [Except.ok.injEq] at h
        subst h
        refine ⟨rfl, ?_, ?_, ?_⟩
        · intro c hc hne
          exact List.mem_filter.mpr ⟨hc, by simpa using hne⟩
        · exact length_decStocks _ _
        · intro i hi hi'
          refine ⟨decStocks_getElem_eqButStock db.products _ i hi, ?_⟩
          intro hnm
          exact decStocks_getElem_of_not_mem db.products _ i hi hnm

/-- Witness: checking out user 7's cart in `exDB` leaves product 2 (not in
the cart) fully unchanged, preserves all non-stock fields of product 1,
and keeps user 8's cart line. -/
theorem checkout_frame_witness :
    ∃ db', checkout 7 exDB = .ok db' ∧
      (db'.cart_items = exDB.cart_items.filter (fun c => !(c.user_id == 7)) ∧
        (∀ c ∈ exDB.cart_items, c.user_id ≠ 7 → c ∈ db'.cart_items) ∧
        db'.products.length = exDB.products.length ∧
        (∀ i, ∀ hi : i < exDB.products.length,
          ∀ hi' : i < db'.products.length,
          eqButStock exDB.products[i] db'.products[i] ∧
          (exDB.products[i].id ∉ (exDB.cart_items.filter
              (fun c => c.user_id == 7)).map (fun c => c.product_id) →
            db'.products[i] = exDB.products[i]))) := by
  obtain ⟨db', hck⟩ : ∃ db', checkout 7 exDB = .ok db' := ⟨_, rfl⟩
  exact ⟨db', hck, checkout_frame exDB 7 db' hck⟩

/-! ## Claim C2: stock non-negativity under checkout -/

/-- C2 as stated is false on the code: checkout decrements stock with no
validation (`app.py` line 275 carries no check), so a cart line asking for
more units than are in stock drives the stock negative.  In `dbOversold`
(stock 1, cart quantity 2, all stocks nonnegative beforehand) checkout
succeeds and leaves product 1 at stock −1. -/
theorem stock_can_go_negative :
    ¬ (∀ (db : DB) (uid : Nat) (db' : DB), checkout uid db = .ok db' →
        (∀ p ∈ db.products, 0 ≤ p.stock) → ∀ p ∈ db'.products, 0 ≤ p.stock) := by
  intro hclaim
  obtain ⟨db', hck, hstk⟩ :
      ∃ db', checkout 7 dbOversold = .ok db' ∧
        stockOf db'.products 1 = some (-1) := ⟨_, rfl, by decide⟩
  obtain ⟨p, hfind, hp⟩ := Option.map_eq_some'.mp hstk
  have hmem : p ∈ db'.products := List.mem_of_find?_eq_some hfind
  have hge := hclaim dbOversold 7 db' hck (by decide) p hmem
  omega

/-- C2 amended: checkout never validates stock, so a product's stock stays
nonnegative only when the demanded quantities are covered.  If every
product's stock is ≥ 0 before checkout and every cart line of the user
demands at most the current stock of its product (with at most one line
per product), then after a successful checkout every stock is still ≥ 0. -/
theorem checkout_stock_nonneg_of_covered (db : DB) (uid : Nat) (db' : DB)
    (hck : checkout uid db = .ok db')
    (hnd : ((db.cart_items.filter (fun c => c.user_id == uid)).map
      (fun c => c.product_id)).Nodup)
    (h0 : ∀ p ∈ db.products, 0 ≤ p.stock)
    (hcov : ∀ c ∈ db.cart_items.filter (fun c => c.user_id == uid),
      ∀ p, getProduct db.products c.product_id = some p →
        c.quantity ≤ p.stock) :
    ∀ p ∈ db'.products, 0 ≤ p.stock := by
  simp only [checkout] at hck
  by_cases hemp : (db.cart_items.filter (fun c => c.user_id == uid)).isEmpty =
      true
  · simp [hemp] at hck
  · have hemp' : (db.cart_items.filter
        (fun c => c.user_id == uid)).isEmpty = false :=
      Bool.eq_false_iff.mpr hemp
    rw [hemp'] at hck
    simp only [Bool.false_eq_true, if_false] at hck
    cases hsn : lineSnapshots db.products
        (db.cart_items.filter (fun c => c.user_id == uid)) with
    | none => rw [hsn] at hck; simp at hck
    | some snaps =>
        rw [hsn] at hck
        simp only [Except.ok.injEq] at hck
        subst hck
        intro p hp
        obtain ⟨⟨i, hi⟩, hpi⟩ := List.mem_iff_get.mp hp
        have hi0 : i < db.products.length := by
          rw [length_decStocks] at hi; exact hi
        rcases decStocks_getElem_characterization db.products _ hnd i hi0 with
          heq | ⟨c, hc, heq, hfind⟩
        · have hps : p = db.products.get ⟨i, hi0⟩ := by
            rw [← hpi]; exact heq
          rw [hps]
          exact h0 _ (List.get_mem db.products i hi0)
        · have hps : p = subStock c.quantity (db.products.get ⟨i, hi0⟩) := by
            rw [← hpi]; exact heq
          have hle := hcov c hc (db.products.get ⟨i, hi0⟩) hfind
          have h0i := h0 _ (List.get_mem db.products i hi0)
          rw [hps]
          show 0 ≤ (db.products.get ⟨i, hi0⟩).stock - c.quantity
          omega

/-- Witness for the amended statement: in `exDB` user 7 demands 2 units of
product 1, which has 5 in stock; all stocks stay nonnegative. -/
theorem checkout_stock_nonneg_of_covered_witness :
    ∃ db', checkout 7 exDB = .ok db' ∧ ∀ p ∈ db'.products, 0 ≤ p.stock := by
  obtain ⟨db', hck⟩ : ∃ db', checkout 7 exDB = .ok db' := ⟨_, rfl⟩
  exact ⟨db', hck, checkout_stock_nonneg_of_covered exDB 7 db' hck
    (by decide) (by decide) (by decide)⟩

/-! ## Claim C4: invariants of the cart operation sequences -/

theorem cartInv_updateCartItem (db : DB) (cid : Nat) (f : CartItem → CartItem)
    (hfu : ∀ c, (f c).user_id = c.user_id)
    (hfp : ∀ c, (f c).product_id = c.product_id)
    (hfi : ∀ c, (f c).id = c.id)
    (hinv : CartInv db) :
    CartInv { db with cart_items := updateCartItem db.cart_items cid f } := by
  obtain ⟨h1, h2, h3⟩ := hinv
  refine ⟨?_, ?_, ?_⟩
  · show ((updateFirst _ f db.cart_items).map
      (fun c => (c.user_id, c.product_id))).Nodup
    have hg : ∀ x, ((f x).user_id, (f x).product_id) =
        (x.user_id, x.product_id) := fun x => by rw [hfu, hfp]
    rw [map_updateFirst_eq _ f _ _ hg]
    exact h1
  · show ((updateFirst _ f db.cart_items).map (fun c => c.id)).Nodup
    rw [map_updateFirst_eq _ f _ _ (fun x => hfi x)]
    exact h2
  · intro c hc
    obtain ⟨x, hx, hor⟩ := mem_updateFirst _ f _ c hc
    rcases hor with heq | heq
    · rw [heq]
      exact h3 x hx
    · rw [heq, hfi]
      exact h3 x hx

theorem cartInv_filter (db : DB) (pred : CartItem → Bool) (hinv : CartInv db) :
    CartInv { db with cart_items := db.cart_items.filter pred } := by
  obtain ⟨h1, h2, h3⟩ := hinv
  refine ⟨?_, ?_, ?_⟩
  · exact List.Nodup.sublist (List.Sublist.map _ (List.filter_sublist _)) h1
  · exact List.Nodup.sublist (List.Sublist.map _ (List.filter_sublist _)) h2
  · intro c hc
    exact h3 c (List.mem_of_mem_filter hc)

theorem cartInv_append_fresh (db : DB) (uid pid : Nat)
    (hnone : db.cart_items.find?
      (fun c => c.user_id == uid && c.product_id == pid) = none)
    (hinv : CartInv db) :
    CartInv { db with
      cart_items := db.cart_items ++ [⟨db.next_cart_item_id, uid, pid, 1⟩],
      next_cart_item_id := db.next_cart_item_id + 1 } := by
  obtain ⟨h1, h2, h3⟩ := hinv
  have hpair : (uid, pid) ∉ db.cart_items.map
      (fun c => (c.user_id, c.product_id)) := by
    intro hmem
    obtain ⟨c, hc, hce⟩ := List.mem_map.mp hmem
    have hno := List.find?_eq_none.mp hnone c hc
    apply hno
    have he1 : c.user_id = uid := congrArg Prod.fst hce
    have he2 : c.product_id = pid := congrArg Prod.snd hce
    simp [he1, he2]
  have hid : db.next_cart_item_id ∉ db.cart_items.map (fun c => c.id) := by
    intro hmem
    obtain ⟨c, hc, hce⟩ := List.mem_map.mp hmem
    have := h3 c hc
    omega
  refine ⟨?_, ?_, ?_⟩
  · rw [List.map_append]
    simp only [List.map_cons, List.map_nil]
    simp [List.nodup_append, h1, hpair]
  · rw [List.map_append]
    simp only [List.map_cons, List.map_nil]
    simp [List.nodup_append, h2, hid]
  · intro c hc
    rcases List.mem_append.mp hc with hmem | hmem
    · have := h3 c hmem
      show c.id < db.next_cart_item_id + 1
      omega
    · have : c = ⟨db.next_cart_item_id, uid, pid, 1⟩ := by simpa using hmem
      rw [this]
      show db.next_cart_item_id < db.next_cart_item_id + 1
      omega

theorem cartInv_applyOp (db : DB) (op : CartOp) (hinv : CartInv db) :
    CartInv (applyOp db op) := by
  cases op with
  | add uid pid =>
      cases hp : getProduct db.products pid with
      | none => simpa [applyOp, add_to_cart, hp] using hinv
      | some p =>
          cases hline : db.cart_items.find?
              (fun c => c.user_id == uid && c.product_id == pid) with
          | some c0 =>
              have heq : applyOp db (.add uid pid) = { db with
                  cart_items :=
                    updateCartItem db.cart_items c0.id incQuantity } := by
                simp [applyOp, add_to_cart, hp, hline]
              rw [heq]
              exact cartInv_updateCartItem db c0.id incQuantity
                (fun c => rfl) (fun c => rfl) (fun c => rfl) hinv
          | none =>
              have heq : applyOp db (.add uid pid) = { db with
                  cart_items := db.cart_items ++
                    [⟨db.next_cart_item_id, uid, pid, 1⟩],
                  next_cart_item_id := db.next_cart_item_id + 1 } := by
                simp [applyOp, add_to_cart, hp, hline]
              rw [heq]
              exact cartInv_append_fresh db uid pid hline hinv
  | set uid lid q =>
      cases hfind : getCartItem db.cart_items lid with
      | none => simpa [applyOp, update_cart, hfind] using hinv
      | some c =>
          by_cases howner : c.user_id = uid
          · by_cases hq : q ≤ 0
            · have heq : applyOp db (.set uid lid q) = { db with
                  cart_items :=
                    db.cart_items.filter (fun c' => !(c'.id == lid)) } := by
                simp [applyOp, update_cart, hfind, howner, hq]
              rw [heq]
              exact cartInv_filter db _ hinv
            · have heq : applyOp db (.set uid lid q) = { db with
                  cart_items :=
                    updateCartItem db.cart_items lid (setQuantity q) } := by
                simp [applyOp, update_cart, hfind, howner, hq]
              rw [heq]
              exact cartInv_updateCartItem db lid (setQuantity q)
                (fun c => rfl) (fun c => rfl) (fun c => rfl) hinv
          · simpa [applyOp, update_cart, hfind, howner] using hinv
  | del uid lid =>
      cases hfind : getCartItem db.cart_items lid with
      | none => simpa [applyOp, remove_from_cart, hfind] using hinv
      | some c =>
          by_cases howner : c.user_id = uid
          · have heq : applyOp db (.del uid lid) = { db with
                cart_items :=
                  db.cart_items.filter (fun c' => !(c'.id == lid)) } := by
              simp [applyOp, remove_from_cart, hfind, howner]
            rw [heq]
            exact cartInv_filter db _ hinv
          · simpa [applyOp, remove_from_cart, hfind, howner] using hinv

theorem cartInv_applyOps (db : DB) (ops : List CartOp) (hinv : CartInv db) :
    CartInv (applyOps db ops) := by
  induction ops generalizing db with
  | nil => exact hinv
  | cons op rest ih => exact ih (applyOp db op) (cartInv_applyOp db op hinv)

theorem applyOp_add_found (db : DB) (uid pid : Nat) (c0 : CartItem)
    (hids : (db.cart_items.map (fun c => c.id)).Nodup)
    (hp : (getProduct db.products pid).isSome)
    (hline : lineOf db uid pid = some c0) :
    lineOf (applyOp db (CartOp.add uid pid)) uid pid =
      some (incQuantity c0) ∧
      (applyOp db (CartOp.add uid pid)).products = db.products := by
  obtain ⟨p, hp'⟩ := Option.isSome_iff_exists.mp hp
  have hline' : db.cart_items.find?
      (fun c => c.user_id == uid && c.product_id == pid) = some c0 := hline
  have heq : applyOp db (CartOp.add uid pid) = { db with
      cart_items := updateCartItem db.cart_items c0.id incQuantity } := by
    simp [applyOp, add_to_cart, hp', hline']
  rw [heq]
  exact ⟨find?_pair_updateFirst_found db.cart_items uid pid incQuantity
    (fun c => rfl) (fun c => rfl) c0 hline' hids, rfl⟩

theorem applyOp_add_fresh (db : DB) (uid pid : Nat)
    (hp : (getProduct db.products pid).isSome)
    (hline : lineOf db uid pid = none) :
    lineOf (applyOp db (CartOp.add uid pid)) uid pid =
      some ⟨db.next_cart_item_id, uid, pid, 1⟩ ∧
      (applyOp db (CartOp.add uid pid)).products = db.products := by
  obtain ⟨p, hp'⟩ := Option.isSome_iff_exists.mp hp
  have hline' : db.cart_items.find?
      (fun c => c.user_id == uid && c.product_id == pid) = none := hline
  have heq : applyOp db (CartOp.add uid pid) = { db with
      cart_items := db.cart_items ++ [⟨db.next_cart_item_id, uid, pid, 1⟩],
      next_cart_item_id := db.next_cart_item_id + 1 } := by
    simp [applyOp, add_to_cart, hp', hline']
  rw [heq]
  refine ⟨?_, rfl⟩
  show (db.cart_items ++
      [(⟨db.next_cart_item_id, uid, pid, 1⟩ : CartItem)]).find?
    (fun c => c.user_id == uid && c.product_id == pid) = _
  rw [find?_append_of_none _ _ _ hline']
  simp [List.find?_cons]

theorem lineOf_applyOps_add_replicate (uid pid : Nat) :
    ∀ (k : Nat) (db : DB) (c0 : CartItem), CartInv db →
      (getProduct db.products pid).isSome →
      lineOf db uid pid = some c0 →
      ∃ c', lineOf (applyOps db (List.replicate k (CartOp.add uid pid)))
          uid pid = some c' ∧ c'.quantity = c0.quantity + k := by
  intro k
  induction k with
  | zero =>
      intro db c0 hinv hp hline
      exact ⟨c0, hline, by simp⟩
  | succ n ih =>
      intro db c0 hinv hp hline
      rw [show List.replicate (n + 1) (CartOp.add uid pid) =
        CartOp.add uid pid :: List.replicate n (CartOp.add uid pid) from rfl]
      show ∃ c', lineOf (applyOps (applyOp db (CartOp.add uid pid))
        (List.replicate n (CartOp.add uid pid))) uid pid = some c' ∧ _
      obtain ⟨hline2, hprod⟩ :=
        applyOp_add_found db uid pid c0 hinv.2.1 hp hline
      obtain ⟨c', hc', hq⟩ := ih (applyOp db (CartOp.add uid pid))
        (incQuantity c0) (cartInv_applyOp db _ hinv)
        (by rw [hprod]; exact hp) hline2
      refine ⟨c', hc', ?_⟩
      rw [hq]
      show c0.quantity + 1 + (n : Int) = c0.quantity + ((n : Nat) + 1 : Nat)
      push_cast
      ring

theorem find?_id_of_mem_nodup (l : List CartItem) (c0 : CartItem)
    (hmem : c0 ∈ l) (hids : (l.map (fun c => c.id)).Nodup) :
    l.find? (fun c => c.id == c0.id) = some c0 := by
  induction l with
  | nil => simp at hmem
  | cons x rest ih =>
      have hids' : (x.id :: rest.map (fun c => c.id)).Nodup := by
        rw [List.map_cons] at hids; exact hids
      rcases List.mem_cons.mp hmem with rfl | hmem'
      · simp [List.find?_cons]
      · have hne : (x.id == c0.id) = false := by
          have : x.id ≠ c0.id := fun he =>
            (List.nodup_cons.mp hids').1
              (he ▸ List.mem_map_of_mem (fun c => c.id) hmem')
          simpa using this
        simp [List.find?_cons, hne,
          ih hmem' (List.nodup_cons.mp hids').2]

/-- Deleting the unique (user, product) line by its primary key leaves no
line for the pair. -/
theorem find?_pair_filter_remove (l : List CartItem) (uid pid : Nat)
    (c0 : CartItem)
    (hpairs : (l.map (fun c => (c.user_id, c.product_id))).Nodup)
    (hline : l.find?
      (fun c => c.user_id == uid && c.product_id == pid) = some c0) :
    (l.filter (fun c => !(c.id == c0.id))).find?
      (fun c => c.user_id == uid && c.product_id == pid) = none := by
  cases hfind2 : (l.filter (fun c => !(c.id == c0.id))).find?
      (fun c => c.user_id == uid && c.product_id == pid) with
  | none => rfl
  | some c1 =>
      exfalso
      have hc1f : c1 ∈ l.filter (fun c => !(c.id == c0.id)) :=
        List.mem_of_find?_eq_some hfind2
      have hc1 : c1 ∈ l := List.mem_of_mem_filter hc1f
      have hidne : c1.id ≠ c0.id := by
        have := (List.mem_filter.mp hc1f).2
        simpa using this
      have hp1 : c1.user_id = uid ∧ c1.product_id = pid := by
        simpa using List.find?_some hfind2
      have hp0 : c0.user_id = uid ∧ c0.product_id = pid := by
        simpa using List.find?_some hline
      have hc0 : c0 ∈ l := List.mem_of_find?_eq_some hline
      have : c1 = c0 :=
        List.inj_on_of_nodup_map hpairs hc1 hc0
          (by rw [hp1.1, hp1.2, hp0.1, hp0.2])
      exact hidne (by rw [this])

/-- Effect of a valid `update_cart` overwrite on the pair's line. -/
theorem applyOp_set_found (db : DB) (uid pid : Nat) (q : Int)
    (c0 : CartItem) (hinv : CartInv db) (hq : 1 ≤ q)
    (hline : lineOf db uid pid = some c0) :
    lineOf (applyOp db (CartOp.set uid c0.id q)) uid pid =
      some (setQuantity q c0) ∧
      (applyOp db (CartOp.set uid c0.id q)).products = db.products := by
  have hline' : db.cart_items.find?
      (fun c => c.user_id == uid && c.product_id == pid) = some c0 := hline
  have hu : c0.user_id = uid := by
    have h := List.find?_some hline'
    simp at h
    exact h.1
  have hgc : getCartItem db.cart_items c0.id = some c0 :=
    find?_id_of_mem_nodup db.cart_items c0
      (List.mem_of_find?_eq_some hline') hinv.2.1
  have hq' : ¬ q ≤ 0 := by omega
  have heq : applyOp db (CartOp.set uid c0.id q) = { db with
      cart_items := updateCartItem db.cart_items c0.id (setQuantity q) } := by
    simp [applyOp, update_cart, hgc, hu, hq']
  rw [heq]
  exact ⟨find?_pair_updateFirst_found db.cart_items uid pid (setQuantity q)
    (fun c => rfl) (fun c => rfl) c0 hline' hinv.2.1, rfl⟩

/-- Effect of a valid `remove_from_cart` on the pair's line. -/
theorem applyOp_del_found (db : DB) (uid pid : Nat)
    (c0 : CartItem) (hinv : CartInv db)
    (hline : lineOf db uid pid = some c0) :
    lineOf (applyOp db (CartOp.del uid c0.id)) uid pid = none ∧
      (applyOp db (CartOp.del uid c0.id)).products = db.products := by
  have hline' : db.cart_items.find?
      (fun c => c.user_id == uid && c.product_id == pid) = some c0 := hline
  have hu : c0.user_id = uid := by
    have h := List.find?_some hline'
    simp at h
    exact h.1
  have hgc : getCartItem db.cart_items c0.id = some c0 :=
    find?_id_of_mem_nodup db.cart_items c0
      (List.mem_of_find?_eq_some hline') hinv.2.1
  have heq : applyOp db (CartOp.del uid c0.id) = { db with
      cart_items := db.cart_items.filter (fun c => !(c.id == c0.id)) } := by
    simp [applyOp, remove_from_cart, hgc, hu]
  rw [heq]
  exact ⟨find?_pair_filter_remove db.cart_items uid pid c0 hinv.1 hline',
    rfl⟩

/-- For a pair with no line yet, a run of k ≥ 1 adds creates exactly the
line with quantity k. -/
theorem lineOf_fresh_adds (db : DB) (uid pid k : Nat) (hinv : CartInv db)
    (hk : 1 ≤ k) (hnone : lineOf db uid pid = none)
    (hp : (getProduct db.products pid).isSome) :
    ∃ c', lineOf (applyOps db (List.replicate k (CartOp.add uid pid)))
      uid pid = some c' ∧ c'.quantity = (k : Int) := by
  obtain ⟨m, rfl⟩ : ∃ m, k = m + 1 := ⟨k - 1, by omega⟩
  rw [show List.replicate (m + 1) (CartOp.add uid pid) =
    CartOp.add uid pid :: List.replicate m (CartOp.add uid pid) from rfl]
  show ∃ c', lineOf (applyOps (applyOp db (CartOp.add uid pid))
    (List.replicate m (CartOp.add uid pid))) uid pid = some c' ∧ _
  obtain ⟨hline1, hprod⟩ := applyOp_add_fresh db uid pid hp hnone
  obtain ⟨c', hc', hq⟩ := lineOf_applyOps_add_replicate uid pid m
    (applyOp db (CartOp.add uid pid)) ⟨db.next_cart_item_id, uid, pid, 1⟩
    (cartInv_applyOp db _ hinv) (by rw [hprod]; exact hp) hline1
  refine ⟨c', hc', ?_⟩
  rw [hq]
  show (1 : Int) + (m : Int) = ((m + 1 : Nat) : Int)
  push_cast
  ring

/-- C4: from any state satisfying the cart representation invariant (which
the empty initial state does), after any sequence of cart operations —
adds, quantity updates, removals, by any users — there is at most one cart
line per (user id, product id) pair.  The line's quantity counts the adds
since its creation, adjusted by the explicit overrides: a run of k ≥ 1
adds on a fresh pair yields quantity k; an `update_cart` overwrite to
q ≥ 1 followed by j adds yields quantity q + j; a removal deletes the line
and j ≥ 1 subsequent adds restart the count at j. -/
theorem cart_unique_and_add_counting (db : DB) (hinv : CartInv db) :
    (∀ ops uid pid, ((applyOps db ops).cart_items.countP
      (fun c => c.user_id == uid && c.product_id == pid)) ≤ 1) ∧
    (∀ uid pid k, 1 ≤ k → lineOf db uid pid = none →
      (getProduct db.products pid).isSome →
      ∃ c', lineOf (applyOps db (List.replicate k (CartOp.add uid pid)))
          uid pid = some c' ∧ c'.quantity = (k : Int)) ∧
    (∀ uid pid q (j : Nat) c0, 1 ≤ q → lineOf db uid pid = some c0 →
      (getProduct db.products pid).isSome →
      ∃ c', lineOf (applyOps db (CartOp.set uid c0.id q ::
          List.replicate j (CartOp.add uid pid))) uid pid = some c' ∧
        c'.quantity = q + (j : Int)) ∧
    (∀ uid pid (j : Nat) c0, 1 ≤ j → lineOf db uid pid = some c0 →
      (getProduct db.products pid).isSome →
      ∃ c', lineOf (applyOps db (CartOp.del uid c0.id ::
          List.replicate j (CartOp.add uid pid))) uid pid = some c' ∧
        c'.quantity = (j : Int)) := by
  refine ⟨?_, ?_, ?_, ?_⟩
  · intro ops uid pid
    exact countP_pair_le_one _ (cartInv_applyOps db ops hinv).1 uid pid
  · intro uid pid k hk hnone hp
    exact lineOf_fresh_adds db uid pid k hinv hk hnone hp
  · intro uid pid q j c0 hq hline hp
    show ∃ c', lineOf (applyOps (applyOp db (CartOp.set uid c0.id q))
      (List.replicate j (CartOp.add uid pid))) uid pid = some c' ∧ _
    obtain ⟨hline1, hprod⟩ := applyOp_set_found db uid pid q c0 hinv hq hline
    obtain ⟨c', hc', hqty⟩ := lineOf_applyOps_add_replicate uid pid j
      (applyOp db (CartOp.set uid c0.id q)) (setQuantity q c0)
      (cartInv_applyOp db _ hinv) (by rw [hprod]; exact hp) hline1
    exact ⟨c', hc', hqty⟩
  · intro uid pid j c0 hj hline hp
    show ∃ c', lineOf (applyOps (applyOp db (CartOp.del uid c0.id))
      (List.replicate j (CartOp.add uid pid))) uid pid = some c' ∧ _
    obtain ⟨hline1, hprod⟩ := applyOp_del_found db uid pid c0 hinv hline
    exact lineOf_fresh_adds (applyOp db (CartOp.del uid c0.id)) uid pid j
      (cartInv_applyOp db _ hinv) hj hline1 (by rw [hprod]; exact hp)

/-- Witness: from `exDB` (invariant holds), a mixed operation sequence
keeps at most one line for (user 7, product 1); three adds of product 2 by
user 5 (no prior line) give quantity 3; overwriting user 7's line (id 1)
to 5 and adding twice gives 7; deleting it and adding twice gives 2. -/
theorem cart_unique_and_add_counting_witness :
    (((applyOps exDB [CartOp.add 7 2, CartOp.set 8 2 5,
        CartOp.del 7 1]).cart_items.countP
      (fun c => c.user_id == 7 && c.product_id == 1)) ≤ 1) ∧
    (∃ c', lineOf (applyOps exDB
        (List.replicate 3 (CartOp.add 5 2))) 5 2 = some c' ∧
      c'.quantity = (3 : Int)) ∧
    (∃ c', lineOf (applyOps exDB (CartOp.set 7 1 5 ::
        List.replicate 2 (CartOp.add 7 1))) 7 1 = some c' ∧
      c'.quantity = (5 : Int) + (2 : Int)) ∧
    (∃ c', lineOf (applyOps exDB (CartOp.del 7 1 ::
        List.replicate 2 (CartOp.add 7 1))) 7 1 = some c' ∧
      c'.quantity = ((2 : Nat) : Int)) :=
  ⟨(cart_unique_and_add_counting exDB
        ⟨by decide, by decide, by decide⟩).1
      [CartOp.add 7 2, CartOp.set 8 2 5, CartOp.del 7 1] 7 1,
    (cart_unique_and_add_counting exDB
        ⟨by decide, by decide, by decide⟩).2.1 5 2 3 (by decide)
      rfl (by decide),
    (cart_unique_and_add_counting exDB
        ⟨by decide, by decide, by decide⟩).2.2.1 7 1 5 2 ⟨1, 7, 1, 2⟩
      (by decide) rfl (by decide),
    (cart_unique_and_add_counting exDB
        ⟨by decide, by decide, by decide⟩).2.2.2 7 1 2 ⟨1, 7, 1, 2⟩
      (by decide) rfl (by decide)⟩

end SmallCart
